import Mathlib

/-!
# test-baseline-analyzer: `src/js/app.js`

A shallow embedding of the functions of `src/js/app.js` and the properties
their specification states about them.

* JavaScript values are the inductive type `JSVal`; a thrown exception is the
  `Except.error` branch of `Except JSErr`.
* The DOM and the two observers are explicit state records; a callback is a
  function from state and batch to state.
* What the environment decides (the outcome of `fetch`, of `response.json()`,
  the reading of `Date.now()`) is a parameter.
-/

set_option autoImplicit false

namespace App

/-! ## JavaScript values -/

/-- A JavaScript number: the special values and the finite ones (every finite
double is a rational). -/
inductive JSNum where
  | nan
  | posInf
  | negInf
  | negZero
  | fin (q : ℚ)

/-- A JavaScript value. `obj` stands for any object (plain object, array,
function) seen through its data properties, the first binding of a name being
the one a read finds. -/
inductive JSVal where
  | undefined
  | null
  | bool (b : Bool)
  | num (n : JSNum)
  | bigint (n : Int)
  | str (s : String)
  | symbol (id : Nat)
  | obj (fields : List (String × JSVal))

/-- The exceptions the embedded code can raise by itself. -/
inductive JSErr where
  | typeError
  deriving DecidableEq

/-- The values `??` and `?.` treat as missing: `null` and `undefined`. -/
def isNullish : JSVal → Bool
  | .undefined => true
  | .null => true
  | _ => false

/-- ToBoolean: the falsy values are `undefined`, `null`, `false`, `0`, `-0`,
`NaN`, `0n` and the empty string. -/
def truthy : JSVal → Bool
  | .undefined => false
  | .null => false
  | .bool b => b
  | .num .nan => false
  | .num .negZero => false
  | .num (.fin q) => decide (q ≠ 0)
  | .num _ => true
  | .bigint n => decide (n ≠ 0)
  | .str s => decide (s ≠ "")
  | .symbol _ => true
  | .obj _ => true

/-- The value bound to `k` in a property list, `undefined` when there is none. -/
def lookup (k : String) : List (String × JSVal) → JSVal
  | [] => .undefined
  | (k', v) :: rest => if k' = k then v else lookup k rest

/-- Reading property `k` of a value that is neither `null` nor `undefined`.
A primitive is read through its wrapper and has no property of the names this
program reads (`theme`, `animations`, `timeout`, `profile`, `email`,
`settings`, `preferences`), so the read gives `undefined`. -/
def field (v : JSVal) (k : String) : JSVal :=
  match v with
  | .obj fields => lookup k fields
  | _ => .undefined

/-- The member access `v.k`: a TypeError on `null` and `undefined`. -/
def getProp (v : JSVal) (k : String) : Except JSErr JSVal :=
  if isNullish v then .error .typeError else .ok (field v k)

/-- The optional member access `v?.k`: `undefined` on `null` and `undefined`. -/
def optProp (v : JSVal) (k : String) : Except JSErr JSVal :=
  if isNullish v then .ok .undefined else getProp v k

/-- The operator `a ?? b`. -/
def nullishCoalesce (a b : JSVal) : JSVal :=
  if isNullish a then b else a

/-- The operator `a || b`. -/
def logicalOr (a b : JSVal) : JSVal :=
  if truthy a then a else b

/-! ## `getConfig` -/

/-- The function `getConfig(options = {})`. A call without argument passes
`undefined`; the default `{}` replaces `undefined` only. -/
def getConfig (arg : JSVal) : Except JSErr JSVal := do
  let options : JSVal :=
    match arg with
    | .undefined => .obj []
    | other => other
  let theme ← getProp options "theme"
  let animations ← getProp options "animations"
  let timeout ← getProp options "timeout"
  pure (.obj [("theme", nullishCoalesce theme (.str "light")),
              ("animations", nullishCoalesce animations (.bool true)),
              ("timeout", nullishCoalesce timeout (.num (.fin 5000)))])

/-! ## `processUserData` -/

/-- The function `processUserData(user)`. In `user?.profile?.email` a nullish
`user` short-circuits the whole chain. -/
def processUserData (user : JSVal) : Except JSErr JSVal := do
  let chainEmail ←
    if isNullish user then pure JSVal.undefined
    else do
      let profile ← getProp user "profile"
      optProp profile "email"
  let email := logicalOr chainEmail (.str "No email")
  let chainPreferences ←
    if isNullish user then pure JSVal.undefined
    else do
      let settings ← getProp user "settings"
      optProp settings "preferences"
  let preferences := nullishCoalesce chainPreferences (.obj [])
  pure (.obj [("email", email), ("preferences", preferences)])

/-! ## `loadData` -/

/-- What `fetch` resolves to: an object whose `json()` call either resolves to
the parsed body or rejects with a thrown value. -/
structure Response where
  json : Except JSVal JSVal

/-- The console methods the program calls. -/
inductive LogLevel where
  | log
  | error
  deriving DecidableEq

/-- One call of a console method with its arguments. -/
structure LogEntry where
  level : LogLevel
  args : List JSVal

/-- The function `loadData()`, awaited to completion. `fetch` gives the outcome
of `await fetch(url)`, `console` is the console output so far; the result is
the outcome of the returned promise and the console output afterwards. -/
def loadData (fetch : String → Except JSVal Response) (console : List LogEntry) :
    Except JSVal JSVal × List LogEntry :=
  let tryBlock : Except JSVal JSVal := do
    let response ← fetch "/api/data"
    let data ← response.json
    pure data
  match tryBlock with
  | .ok data => (.ok data, console)
  | .error error =>
    (.ok .null, console ++ [⟨.error, [.str "Failed to load data:", error]⟩])

/-! ## `setupLazyLoading` -/

/-- An element is named by a number. Of an image the program touches `src`
and `dataset.src`. -/
structure Img where
  src : JSVal
  datasetSrc : JSVal

/-- One record of the batch handed to the IntersectionObserver callback. -/
structure IntersectionEntry where
  isIntersecting : Bool
  target : Nat

/-- The images of the document, the observation targets of the observer, and
the trace of the assignments `img.src = ...` made so far, oldest first (each
assignment is an effect of its own: it sets the attribute anew). -/
structure LazyState where
  imgs : Nat → Img
  observed : List Nat
  srcWrites : List Nat

/-- The call `observer.observe(el)`: the targets are a set. -/
def observe (targets : List Nat) (el : Nat) : List Nat :=
  if el ∈ targets then targets else targets ++ [el]

/-- The call `observer.unobserve(el)`. -/
def unobserve (targets : List Nat) (el : Nat) : List Nat :=
  targets.filter (fun t => decide (t ≠ el))

/-- The body of `entries.forEach(entry => ...)` in the lazy-loading callback. -/
def lazyLoadingEntry (st : LazyState) (entry : IntersectionEntry) : LazyState :=
  if entry.isIntersecting then
    let img := entry.target
    { imgs := Function.update st.imgs img
        { src := (st.imgs img).datasetSrc, datasetSrc := (st.imgs img).datasetSrc }
      observed := unobserve st.observed img
      srcWrites := st.srcWrites ++ [img] }
  else st

/-- The callback given to `new IntersectionObserver(...)`. -/
def lazyLoadingCallback (st : LazyState) (entries : List IntersectionEntry) : LazyState :=
  entries.foldl lazyLoadingEntry st

/-- The function `setupLazyLoading()`: `matching` is what
`document.querySelectorAll('[data-src]')` returns. The option
`{ threshold: 0.1 }` bears on when the environment reports an element, not on
what the callback does with a record. -/
def setupLazyLoading (imgs : Nat → Img) (matching : List Nat) : LazyState :=
  { imgs := imgs, observed := matching.foldl observe [], srcWrites := [] }

/-- The environment side of the IntersectionObserver: it reports on its
observation targets only, so of the records of a round those whose target is
not observed when the batch is put together never reach the callback. -/
def notifyLazy (st : LazyState) (records : List IntersectionEntry) : LazyState :=
  lazyLoadingCallback st (records.filter (fun r => decide (r.target ∈ st.observed)))

/-- Any number of rounds of the observer, one batch each. -/
def notifyLazyAll (st : LazyState) (rounds : List (List IntersectionEntry)) : LazyState :=
  rounds.foldl notifyLazy st

/-- How many times `src` of element `el` has been assigned. -/
def copyCount (st : LazyState) (el : Nat) : Nat :=
  st.srcWrites.count el

/-! ## `setupResponsiveComponents` -/

/-- One record of the batch handed to the ResizeObserver callback:
`contentRect.width` (a finite double, read as a rational) and the target. -/
structure ResizeEntry where
  width : ℚ
  target : Nat

/-- The call `classList.add(c)`: the tokens are an ordered set. -/
def classListAdd (c : String) (classes : List String) : List String :=
  if c ∈ classes then classes else classes ++ [c]

/-- The call `classList.remove(c)`. -/
def classListRemove (c : String) (classes : List String) : List String :=
  classes.filter (fun t => decide (t ≠ c))

/-- The body of `entries.forEach(entry => ...)` in the resize callback; the
state is the class list of every element. -/
def resizeEntry (classes : Nat → List String) (entry : ResizeEntry) : Nat → List String :=
  let width := entry.width
  let element := entry.target
  if width < 300 then
    Function.update classes element (classListAdd "compact" (classes element))
  else
    Function.update classes element (classListRemove "compact" (classes element))

/-- The callback seen from one element: what one record does to the class list
of element `el` (`resizeEntry_apply` ties it to `resizeEntry`). -/
def resizeEntryAt (el : Nat) (classes : List String) (entry : ResizeEntry) : List String :=
  if entry.target = el then
    if entry.width < 300 then classListAdd "compact" classes
    else classListRemove "compact" classes
  else classes

/-- The callback given to `new ResizeObserver(...)`. -/
def resizeCallback (classes : Nat → List String) (entries : List ResizeEntry) :
    Nat → List String :=
  entries.foldl resizeEntry classes

/-- The function `setupResponsiveComponents()`: `matching` is what
`document.querySelectorAll('.responsive-component')` returns; the result is
the set of observation targets. -/
def setupResponsiveComponents (matching : List Nat) : List Nat :=
  matching.foldl observe []

/-! ## `ModernComponent` -/

/-- The call `map.set(k, v)` on a `Map` with string keys, kept in insertion
order. -/
def mapSet (k : String) (v : JSVal) : List (String × JSVal) → List (String × JSVal)
  | [] => [(k, v)]
  | (k', v') :: rest => if k' = k then (k, v) :: rest else (k', v') :: mapSet k v rest

/-- The call `map.get(k)`. -/
def mapGet (k : String) (m : List (String × JSVal)) : JSVal :=
  lookup k m

/-- An instance of `class ModernComponent`: the public field `element` and
the private field `#privateData`. -/
structure ModernComponent where
  element : JSVal
  privateData : List (String × JSVal)

/-- The private method `#initialize()`; `now` is the reading of `Date.now()`. -/
def ModernComponent.initializeStore (self : ModernComponent) (now : Int) : ModernComponent :=
  { self with privateData := mapSet "initialized" (.num (.fin now)) self.privateData }

/-- The expression `new ModernComponent(element)`: the field initialiser
`#privateData = new Map()`, then the constructor body. -/
def ModernComponent.new (element : JSVal) (now : Int) : ModernComponent :=
  let self : ModernComponent := { element := .undefined, privateData := [] }
  let self := { self with element := element }
  self.initializeStore now

/-- The method `getInitTime()`, called when the clock reads `clock`: the
returned value and the instance afterwards. -/
def ModernComponent.getInitTime (self : ModernComponent) (_clock : Int) :
    JSVal × ModernComponent :=
  (mapGet "initialized" self.privateData, self)

/-- What outside code can do with an instance: call its one method, or assign
its public field. The private field is reachable from the class body only. -/
inductive Action where
  | getInitTime
  | setElement (value : JSVal)

/-- One action on an instance at clock reading `clock`: the value the action
returns (`undefined` for an assignment) and the instance afterwards. -/
def ModernComponent.step (self : ModernComponent) (a : Action) (clock : Int) :
    JSVal × ModernComponent :=
  match a with
  | .getInitTime => self.getInitTime clock
  | .setElement value => (.undefined, { self with element := value })

/-- The instance after a sequence of actions, each with its clock reading. -/
def ModernComponent.run (self : ModernComponent) : List (Action × Int) → ModernComponent
  | [] => self
  | (a, clock) :: rest => ModernComponent.run (self.step a clock).2 rest

/-! ## Properties of the value operators -/

theorem truthy_of_nullish (v : JSVal) (h : isNullish v = true) : truthy v = false := by
  cases v <;> simp_all [isNullish, truthy]

theorem nullishCoalesce_of_present (a b : JSVal) (h : isNullish a = false) :
    nullishCoalesce a b = a := by
  simp [nullishCoalesce, h]

theorem nullishCoalesce_of_missing (a b : JSVal) (h : isNullish a = true) :
    nullishCoalesce a b = b := by
  simp [nullishCoalesce, h]

theorem getProp_of_present (v : JSVal) (k : String) (h : isNullish v = false) :
    getProp v k = .ok (field v k) := by
  simp [getProp, h]

theorem getConfig_of_present (options : JSVal) (h : isNullish options = false) :
    getConfig options = .ok (.obj
      [("theme", nullishCoalesce (field options "theme") (.str "light")),
       ("animations", nullishCoalesce (field options "animations") (.bool true)),
       ("timeout", nullishCoalesce (field options "timeout") (.num (.fin 5000)))]) := by
  cases options <;> simp_all [getConfig, getProp, isNullish] <;> rfl

/-- The two optional chains of `processUserData` on a user that is there. -/
theorem processUserData_of_present (user : JSVal) (h : isNullish user = false) :
    processUserData user = .ok (.obj
      [("email", logicalOr
          (if isNullish (field user "profile") then .undefined
           else field (field user "profile") "email") (.str "No email")),
       ("preferences", nullishCoalesce
          (if isNullish (field user "settings") then .undefined
           else field (field user "settings") "preferences") (.obj []))]) := by
  by_cases hp : isNullish (field user "profile") = true <;>
    by_cases hs : isNullish (field user "settings") = true <;>
    simp [processUserData, getProp, optProp, h, hp, hs, bind, Except.bind, pure, Except.pure,
      Functor.map, Except.map]

theorem processUserData_of_missing (user : JSVal) (h : isNullish user = true) :
    processUserData user =
      .ok (.obj [("email", .str "No email"), ("preferences", .obj [])]) := by
  cases user <;> simp_all [isNullish] <;> rfl

/-! ## `getConfig` -/

/-- C1: for every options record `getConfig` returns a record with exactly the
fields `theme`, `animations`, `timeout`; each is the input field when that
field is neither `null` nor absent (whatever its value, falsy ones included),
and the default `'light'`, `true`, `5000` when the input field is `null` or
absent; `getConfig({timeout: 0})` is `{theme:'light', animations:true,
timeout:0}`. -/
theorem getConfig_resolves (fields : List (String × JSVal)) :
    (∃ theme animations timeout,
      getConfig (.obj fields) =
        .ok (.obj [("theme", theme), ("animations", animations), ("timeout", timeout)]) ∧
      (isNullish (field (.obj fields) "theme") = false → theme = field (.obj fields) "theme") ∧
      (isNullish (field (.obj fields) "theme") = true → theme = .str "light") ∧
      (isNullish (field (.obj fields) "animations") = false →
        animations = field (.obj fields) "animations") ∧
      (isNullish (field (.obj fields) "animations") = true → animations = .bool true) ∧
      (isNullish (field (.obj fields) "timeout") = false →
        timeout = field (.obj fields) "timeout") ∧
      (isNullish (field (.obj fields) "timeout") = true → timeout = .num (.fin 5000))) ∧
    getConfig (.obj [("timeout", .num (.fin 0))]) =
      .ok (.obj [("theme", .str "light"), ("animations", .bool true),
        ("timeout", .num (.fin 0))]) ∧
    getConfig (.obj [("theme", .str ""), ("animations", .bool false)]) =
      .ok (.obj [("theme", .str ""), ("animations", .bool false),
        ("timeout", .num (.fin 5000))]) := by
  refine ⟨⟨_, _, _, getConfig_of_present (.obj fields) rfl, ?_, ?_, ?_, ?_, ?_, ?_⟩, rfl, rfl⟩
  · exact nullishCoalesce_of_present _ _
  · exact nullishCoalesce_of_missing _ _
  · exact nullishCoalesce_of_present _ _
  · exact nullishCoalesce_of_missing _ _
  · exact nullishCoalesce_of_present _ _
  · exact nullishCoalesce_of_missing _ _

/-- C3, as the code has it: for every argument other than `null` (no argument
or `undefined`, an object with any subset of the fields, a primitive)
`getConfig` returns a record with the fields `theme`, `animations`, `timeout`
and does not throw. -/
theorem getConfig_total_of_ne_null (arg : JSVal) (h : arg ≠ .null) :
    ∃ theme animations timeout,
      getConfig arg =
        .ok (.obj [("theme", theme), ("animations", animations), ("timeout", timeout)]) := by
  cases arg with
  | null => exact absurd rfl h
  | undefined => exact ⟨_, _, _, rfl⟩
  | bool b => exact ⟨_, _, _, getConfig_of_present _ rfl⟩
  | num n => exact ⟨_, _, _, getConfig_of_present _ rfl⟩
  | bigint n => exact ⟨_, _, _, getConfig_of_present _ rfl⟩
  | str s => exact ⟨_, _, _, getConfig_of_present _ rfl⟩
  | symbol id => exact ⟨_, _, _, getConfig_of_present _ rfl⟩
  | obj fields => exact ⟨_, _, _, getConfig_of_present _ rfl⟩

theorem getConfig_total_of_ne_null_witness :
    JSVal.str "dark" ≠ JSVal.null ∧
    ∃ theme animations timeout,
      getConfig (.str "dark") =
        .ok (.obj [("theme", theme), ("animations", animations), ("timeout", timeout)]) :=
  ⟨by simp, getConfig_total_of_ne_null (.str "dark") (by simp)⟩

/-- C3 fails at `null`: `getConfig(null)` throws a TypeError, the default `{}`
standing in for `undefined` only. -/
theorem getConfig_null_throws :
    getConfig .null = .error .typeError ∧
    ¬ ∃ record, getConfig .null = .ok record := by
  refine ⟨rfl, ?_⟩
  rintro ⟨record, h⟩
  have h2 : getConfig .null = .error .typeError := rfl
  rw [h2] at h
  cases h

/-! ## `processUserData` -/

/-- C5: `processUserData` does not throw: for every value it returns a record
with the two fields `email` and `preferences`. -/
theorem processUserData_total (user : JSVal) :
    ∃ email preferences,
      processUserData user = .ok (.obj [("email", email), ("preferences", preferences)]) := by
  cases h : isNullish user
  · exact ⟨_, _, processUserData_of_present user h⟩
  · exact ⟨_, _, processUserData_of_missing user h⟩

/-- C2, as the code has it: `email` is `'No email'` when `user`,
`user.profile` or `user.profile.email` is `null` or `undefined`, and also when
the value at `user.profile.email` is falsy (`false`, `0`, `-0`, `NaN`, `0n`,
`''`); it is the value at `user.profile.email` when that value is truthy. -/
theorem processUserData_email (user : JSVal) :
    (∃ email preferences,
      processUserData user = .ok (.obj [("email", email), ("preferences", preferences)]) ∧
      (isNullish user = true → email = .str "No email") ∧
      (isNullish user = false → isNullish (field user "profile") = true →
        email = .str "No email") ∧
      (isNullish user = false → isNullish (field user "profile") = false →
        isNullish (field (field user "profile") "email") = true → email = .str "No email") ∧
      (isNullish user = false → isNullish (field user "profile") = false →
        truthy (field (field user "profile") "email") = false → email = .str "No email") ∧
      (isNullish user = false → isNullish (field user "profile") = false →
        truthy (field (field user "profile") "email") = true →
        email = field (field user "profile") "email")) ∧
    processUserData .null = .ok (.obj [("email", .str "No email"), ("preferences", .obj [])]) ∧
    processUserData (.obj [("profile", .obj [("email", .str "a@b.com")])]) =
      .ok (.obj [("email", .str "a@b.com"), ("preferences", .obj [])]) := by
  refine ⟨?_, rfl, rfl⟩
  cases h : isNullish user
  · refine ⟨_, _, processUserData_of_present user h, ?_, ?_, ?_, ?_, ?_⟩
    · intro h'; cases h'
    · intro _ hp; rw [if_pos hp]; rfl
    · intro _ hp he; rw [if_neg (by simp [hp])]; simp [logicalOr, truthy_of_nullish _ he]
    · intro _ hp he; rw [if_neg (by simp [hp])]; simp [logicalOr, he]
    · intro _ hp he; rw [if_neg (by simp [hp])]; simp [logicalOr, he]
  · refine ⟨_, _, processUserData_of_missing user h, ?_, ?_, ?_, ?_, ?_⟩
    · intro _; rfl
    · intro h'; cases h'
    · intro h'; cases h'
    · intro h'; cases h'
    · intro h'; cases h'

/-- C2 fails on a falsy email: in `{profile: {email: ''}}` every segment of
the path `user.profile.email` is present, the value there is `''`, and
`processUserData` returns `'No email'`. -/
theorem processUserData_email_falsy_replaced :
    isNullish (.obj [("profile", .obj [("email", .str "")])]) = false ∧
    isNullish (field (.obj [("profile", .obj [("email", .str "")])]) "profile") = false ∧
    isNullish (field (field (.obj [("profile", .obj [("email", .str "")])]) "profile") "email")
      = false ∧
    field (field (.obj [("profile", .obj [("email", .str "")])]) "profile") "email" = .str "" ∧
    processUserData (.obj [("profile", .obj [("email", .str "")])]) =
      .ok (.obj [("email", .str "No email"), ("preferences", .obj [])]) ∧
    JSVal.str "No email" ≠ JSVal.str "" := by
  refine ⟨rfl, rfl, rfl, rfl, rfl, ?_⟩
  simp

/-- C9: `preferences` is the value at `user.settings.preferences` when `user`,
`user.settings` and that value are neither `null` nor `undefined` (whatever
the value, falsy ones included), and is the empty object when `user`,
`user.settings` or `user.settings.preferences` is `null` or `undefined`. -/
theorem processUserData_preferences (user : JSVal) :
    (∃ email preferences,
      processUserData user = .ok (.obj [("email", email), ("preferences", preferences)]) ∧
      (isNullish user = true → preferences = .obj []) ∧
      (isNullish user = false → isNullish (field user "settings") = true →
        preferences = .obj []) ∧
      (isNullish user = false → isNullish (field user "settings") = false →
        isNullish (field (field user "settings") "preferences") = true →
        preferences = .obj []) ∧
      (isNullish user = false → isNullish (field user "settings") = false →
        isNullish (field (field user "settings") "preferences") = false →
        preferences = field (field user "settings") "preferences")) ∧
    processUserData .null = .ok (.obj [("email", .str "No email"), ("preferences", .obj [])]) ∧
    processUserData (.obj [("profile", .obj [("email", .str "a@b.com")])]) =
      .ok (.obj [("email", .str "a@b.com"), ("preferences", .obj [])]) ∧
    processUserData (.obj [("settings", .obj [("preferences", .num (.fin 0))])]) =
      .ok (.obj [("email", .str "No email"), ("preferences", .num (.fin 0))]) ∧
    processUserData (.obj [("settings", .obj [("preferences", .bool false)])]) =
      .ok (.obj [("email", .str "No email"), ("preferences", .bool false)]) ∧
    processUserData (.obj [("settings", .obj [("preferences", .str "")])]) =
      .ok (.obj [("email", .str "No email"), ("preferences", .str "")]) := by
  refine ⟨?_, rfl, rfl, rfl, rfl, rfl⟩
  cases h : isNullish user
  · refine ⟨_, _, processUserData_of_present user h, ?_, ?_, ?_, ?_⟩
    · intro h'; cases h'
    · intro _ hs; rw [if_pos hs]; rfl
    · intro _ hs hv; rw [if_neg (by simp [hs])]; simp [nullishCoalesce, hv]
    · intro _ hs hv; rw [if_neg (by simp [hs])]; simp [nullishCoalesce, hv]
  · refine ⟨_, _, processUserData_of_missing user h, ?_, ?_, ?_, ?_⟩
    · intro _; rfl
    · intro h'; cases h'
    · intro h'; cases h'
    · intro h'; cases h'

/-! ## `loadData` -/

/-- C4: `loadData` never hands a failure to its caller. When the request
fails, or the request succeeds and parsing the body fails, it returns `null`
and adds exactly one `console.error` entry; when both succeed it returns the
parsed body and adds no entry. -/
theorem loadData_contains_failure (fetch : String → Except JSVal Response)
    (console : List LogEntry) :
    (∃ value, (loadData fetch console).1 = .ok value) ∧
    (∀ err, fetch "/api/data" = .error err →
      loadData fetch console =
        (.ok .null, console ++ [⟨.error, [.str "Failed to load data:", err]⟩])) ∧
    (∀ response err, fetch "/api/data" = .ok response → response.json = .error err →
      loadData fetch console =
        (.ok .null, console ++ [⟨.error, [.str "Failed to load data:", err]⟩])) ∧
    (∀ response body, fetch "/api/data" = .ok response → response.json = .ok body →
      loadData fetch console = (.ok body, console)) := by
  refine ⟨?_, ?_, ?_, ?_⟩
  · unfold loadData
    cases hf : fetch "/api/data" with
    | error err => exact ⟨_, rfl⟩
    | ok response =>
      cases hj : response.json with
      | error err => exact ⟨.null, by simp [bind, Except.bind, hj]⟩
      | ok body => exact ⟨body, by simp [bind, Except.bind, hj, pure, Except.pure]⟩
  · intro err hf
    simp [loadData, hf, bind, Except.bind]
  · intro response err hf hj
    simp [loadData, hf, hj, bind, Except.bind]
  · intro response body hf hj
    simp [loadData, hf, hj, bind, Except.bind, pure, Except.pure]

/-! ## `ModernComponent` -/

theorem ModernComponent.step_privateData (self : ModernComponent) (a : Action) (clock : Int) :
    (self.step a clock).2.privateData = self.privateData := by
  cases a <;> rfl

theorem ModernComponent.run_privateData (self : ModernComponent) (actions : List (Action × Int)) :
    (self.run actions).privateData = self.privateData := by
  induction actions generalizing self with
  | nil => rfl
  | cons head rest ih =>
    obtain ⟨a, clock⟩ := head
    simp only [ModernComponent.run]
    rw [ih, ModernComponent.step_privateData]

/-- C10: after construction the store of a `ModernComponent` holds exactly one
entry, `'initialized'` with the clock reading taken at construction; nothing
that can be done with the instance afterwards changes the store, and every
call of `getInitTime()`, after any such history and whatever the clock reads
then, returns the construction-time reading. -/
theorem ModernComponent_initTime_fixed (element : JSVal) (now : Int)
    (history : List (Action × Int)) (clock : Int) :
    (ModernComponent.new element now).privateData = [("initialized", .num (.fin now))] ∧
    ((ModernComponent.new element now).run history).privateData =
      [("initialized", .num (.fin now))] ∧
    (((ModernComponent.new element now).run history).getInitTime clock).1 = .num (.fin now) ∧
    (((ModernComponent.new element now).run history).getInitTime clock).2 =
      (ModernComponent.new element now).run history := by
  have h0 : (ModernComponent.new element now).privateData =
      [("initialized", .num (.fin now))] := rfl
  refine ⟨h0, ?_, ?_, rfl⟩
  · rw [ModernComponent.run_privateData, h0]
  · simp only [ModernComponent.getInitTime]
    rw [ModernComponent.run_privateData, h0]
    simp [mapGet, lookup]

/-! ## `setupLazyLoading` -/

theorem mem_unobserve (targets : List Nat) (el e : Nat) :
    e ∈ unobserve targets el ↔ e ∈ targets ∧ e ≠ el := by
  simp [unobserve]

theorem lazyLoadingCallback_cons (st : LazyState) (x : IntersectionEntry)
    (xs : List IntersectionEntry) :
    lazyLoadingCallback st (x :: xs) = lazyLoadingCallback (lazyLoadingEntry st x) xs := rfl

theorem lazyLoadingEntry_datasetSrc (st : LazyState) (x : IntersectionEntry) (e : Nat) :
    ((lazyLoadingEntry st x).imgs e).datasetSrc = (st.imgs e).datasetSrc := by
  unfold lazyLoadingEntry
  split
  · by_cases he : e = x.target
    · subst he; simp
    · simp [Function.update, he]
  · rfl

/-- A record that is not a visible one for `e` leaves `e` as it is. -/
theorem lazyLoadingEntry_other (st : LazyState) (x : IntersectionEntry) (e : Nat)
    (h : x.isIntersecting = true → x.target ≠ e) :
    (lazyLoadingEntry st x).imgs e = st.imgs e ∧
    (e ∈ (lazyLoadingEntry st x).observed ↔ e ∈ st.observed) ∧
    copyCount (lazyLoadingEntry st x) e = copyCount st e := by
  unfold lazyLoadingEntry
  split
  · rename_i hx
    have hne : e ≠ x.target := fun heq => h hx heq.symm
    refine ⟨?_, ?_, ?_⟩
    · simp [Function.update, hne]
    · simp [mem_unobserve, hne]
    · simp [copyCount, List.count_append, List.count_singleton, hne]
  · exact ⟨rfl, Iff.rfl, rfl⟩

/-- A visible record copies `dataset.src` into `src` and unobserves. -/
theorem lazyLoadingEntry_hit (st : LazyState) (x : IntersectionEntry)
    (h : x.isIntersecting = true) :
    ((lazyLoadingEntry st x).imgs x.target).src = (st.imgs x.target).datasetSrc ∧
    x.target ∉ (lazyLoadingEntry st x).observed ∧
    copyCount (lazyLoadingEntry st x) x.target = copyCount st x.target + 1 := by
  unfold lazyLoadingEntry
  simp [h, mem_unobserve, copyCount, List.count_append]

/-- Once `src` holds `dataset.src` and the element is unobserved, every record
keeps it so. -/
theorem lazyLoadingEntry_done (st : LazyState) (x : IntersectionEntry) (e : Nat)
    (hsrc : (st.imgs e).src = (st.imgs e).datasetSrc) (hobs : e ∉ st.observed) :
    ((lazyLoadingEntry st x).imgs e).src = ((lazyLoadingEntry st x).imgs e).datasetSrc ∧
    e ∉ (lazyLoadingEntry st x).observed := by
  by_cases h : x.isIntersecting = true → x.target ≠ e
  · obtain ⟨h1, h2, _⟩ := lazyLoadingEntry_other st x e h
    rw [h1]
    exact ⟨hsrc, fun hmem => hobs (h2.mp hmem)⟩
  · push_neg at h
    obtain ⟨hx, rfl⟩ := h
    obtain ⟨h1, h2, _⟩ := lazyLoadingEntry_hit st x hx
    rw [h1, lazyLoadingEntry_datasetSrc]
    exact ⟨rfl, h2⟩

theorem lazyLoadingCallback_datasetSrc (st : LazyState) (entries : List IntersectionEntry)
    (e : Nat) :
    ((lazyLoadingCallback st entries).imgs e).datasetSrc = (st.imgs e).datasetSrc := by
  induction entries generalizing st with
  | nil => rfl
  | cons x xs ih => rw [lazyLoadingCallback_cons, ih, lazyLoadingEntry_datasetSrc]

theorem lazyLoadingCallback_other (st : LazyState) (entries : List IntersectionEntry) (e : Nat)
    (h : ∀ r ∈ entries, r.isIntersecting = true → r.target ≠ e) :
    (lazyLoadingCallback st entries).imgs e = st.imgs e ∧
    (e ∈ (lazyLoadingCallback st entries).observed ↔ e ∈ st.observed) ∧
    copyCount (lazyLoadingCallback st entries) e = copyCount st e := by
  induction entries generalizing st with
  | nil => exact ⟨rfl, Iff.rfl, rfl⟩
  | cons x xs ih =>
    have hx := lazyLoadingEntry_other st x e (h x (List.mem_cons_self _ _))
    have hxs := ih (lazyLoadingEntry st x) (fun r hr => h r (List.mem_cons_of_mem _ hr))
    rw [lazyLoadingCallback_cons]
    exact ⟨hxs.1.trans hx.1, hxs.2.1.trans hx.2.1, hxs.2.2.trans hx.2.2⟩

theorem lazyLoadingCallback_done (st : LazyState) (entries : List IntersectionEntry) (e : Nat)
    (hsrc : (st.imgs e).src = (st.imgs e).datasetSrc) (hobs : e ∉ st.observed) :
    ((lazyLoadingCallback st entries).imgs e).src =
      ((lazyLoadingCallback st entries).imgs e).datasetSrc ∧
    e ∉ (lazyLoadingCallback st entries).observed := by
  induction entries generalizing st with
  | nil => exact ⟨hsrc, hobs⟩
  | cons x xs ih =>
    obtain ⟨h1, h2⟩ := lazyLoadingEntry_done st x e hsrc hobs
    rw [lazyLoadingCallback_cons]
    exact ih (lazyLoadingEntry st x) h1 h2

theorem lazyLoadingCallback_hit (st : LazyState) (entries : List IntersectionEntry)
    (r : IntersectionEntry) (hr : r ∈ entries) (hvis : r.isIntersecting = true) :
    ((lazyLoadingCallback st entries).imgs r.target).src = (st.imgs r.target).datasetSrc ∧
    r.target ∉ (lazyLoadingCallback st entries).observed := by
  induction entries generalizing st with
  | nil => cases hr
  | cons x xs ih =>
    rw [lazyLoadingCallback_cons]
    rcases List.mem_cons.mp hr with rfl | hmem
    · obtain ⟨h1, h2, _⟩ := lazyLoadingEntry_hit st r hvis
      have hd := lazyLoadingCallback_done (lazyLoadingEntry st r) xs r.target
        (by rw [h1, lazyLoadingEntry_datasetSrc]) h2
      refine ⟨?_, hd.2⟩
      rw [hd.1, lazyLoadingCallback_datasetSrc, lazyLoadingEntry_datasetSrc]
    · obtain ⟨h1, h2⟩ := ih (lazyLoadingEntry st x) hmem
      exact ⟨h1.trans (lazyLoadingEntry_datasetSrc st x r.target), h2⟩

/-- C6: after the lazy-loading callback has run on a batch, every element with
a record with `isIntersecting` true has `src` equal to its `dataset.src` and
is not among the observed elements, and every element without such a record
in the batch has its `src` and its registration as before. -/
theorem lazyLoadingCallback_frame (st : LazyState) (entries : List IntersectionEntry) :
    (∀ r ∈ entries, r.isIntersecting = true →
      ((lazyLoadingCallback st entries).imgs r.target).src =
        ((lazyLoadingCallback st entries).imgs r.target).datasetSrc ∧
      ((lazyLoadingCallback st entries).imgs r.target).src = (st.imgs r.target).datasetSrc ∧
      r.target ∉ (lazyLoadingCallback st entries).observed) ∧
    (∀ el, (∀ r ∈ entries, r.isIntersecting = true → r.target ≠ el) →
      ((lazyLoadingCallback st entries).imgs el).src = (st.imgs el).src ∧
      (el ∈ (lazyLoadingCallback st entries).observed ↔ el ∈ st.observed)) := by
  constructor
  · intro r hr hvis
    obtain ⟨h1, h2⟩ := lazyLoadingCallback_hit st entries r hr hvis
    exact ⟨by rw [h1, lazyLoadingCallback_datasetSrc], h1, h2⟩
  · intro el hel
    obtain ⟨h1, h2, _⟩ := lazyLoadingCallback_other st entries el hel
    exact ⟨by rw [h1], h2⟩

theorem lazyLoadingCallback_frame_witness :
    ((lazyLoadingCallback
        ⟨fun _ => ⟨.str "", .str "x.png"⟩, [1, 2], []⟩ [⟨true, 1⟩, ⟨false, 2⟩]).imgs 1).src =
      .str "x.png" ∧
    (1 : Nat) ∉ (lazyLoadingCallback
        ⟨fun _ => ⟨.str "", .str "x.png"⟩, [1, 2], []⟩ [⟨true, 1⟩, ⟨false, 2⟩]).observed :=
  ((lazyLoadingCallback_frame ⟨fun _ => ⟨.str "", .str "x.png"⟩, [1, 2], []⟩
      [⟨true, 1⟩, ⟨false, 2⟩]).1 ⟨true, 1⟩ (by simp) rfl).2

/-- An element that is not observed is in no batch of the observer, so a round
leaves it alone. -/
theorem notifyLazy_unobserved (st : LazyState) (records : List IntersectionEntry) (e : Nat)
    (h : e ∉ st.observed) :
    (notifyLazy st records).imgs e = st.imgs e ∧
    e ∉ (notifyLazy st records).observed ∧
    copyCount (notifyLazy st records) e = copyCount st e := by
  have hnone : ∀ r ∈ records.filter (fun r => decide (r.target ∈ st.observed)),
      r.isIntersecting = true → r.target ≠ e := by
    intro r hr _ heq
    rw [List.mem_filter] at hr
    have hobs : r.target ∈ st.observed := by simpa using hr.2
    exact h (heq ▸ hobs)
  obtain ⟨h1, h2, h3⟩ := lazyLoadingCallback_other st _ e hnone
  exact ⟨h1, fun hmem => h (h2.mp hmem), h3⟩

theorem notifyLazyAll_unobserved (st : LazyState) (rounds : List (List IntersectionEntry))
    (e : Nat) (h : e ∉ st.observed) :
    (notifyLazyAll st rounds).imgs e = st.imgs e ∧
    e ∉ (notifyLazyAll st rounds).observed ∧
    copyCount (notifyLazyAll st rounds) e = copyCount st e := by
  induction rounds generalizing st with
  | nil => exact ⟨rfl, h, rfl⟩
  | cons batch rest ih =>
    obtain ⟨h1, h2, h3⟩ := notifyLazy_unobserved st batch e h
    obtain ⟨k1, k2, k3⟩ := ih (notifyLazy st batch) h2
    exact ⟨k1.trans h1, k2, k3.trans h3⟩

/-- C7, as the code has it: an element the callback has processed as visible
is unobserved and stays so, and through any number of later rounds of the
observer, which reports on observed elements only, `src` is not assigned
again and keeps the value of `dataset.src`. The callback has no check of its
own: run on one more record with `isIntersecting` true for the element, it
assigns `src` once more, to the same value. -/
theorem lazyLoading_copy_once_through_observer (st : LazyState)
    (entries : List IntersectionEntry) (r : IntersectionEntry) (hr : r ∈ entries)
    (hvis : r.isIntersecting = true) (rounds : List (List IntersectionEntry)) :
    r.target ∉ (lazyLoadingCallback st entries).observed ∧
    r.target ∉ (notifyLazyAll (lazyLoadingCallback st entries) rounds).observed ∧
    copyCount (notifyLazyAll (lazyLoadingCallback st entries) rounds) r.target =
      copyCount (lazyLoadingCallback st entries) r.target ∧
    ((notifyLazyAll (lazyLoadingCallback st entries) rounds).imgs r.target).src =
      (st.imgs r.target).datasetSrc ∧
    copyCount (lazyLoadingCallback (lazyLoadingCallback st entries) [r]) r.target =
      copyCount (lazyLoadingCallback st entries) r.target + 1 ∧
    ((lazyLoadingCallback (lazyLoadingCallback st entries) [r]).imgs r.target).src =
      (st.imgs r.target).datasetSrc := by
  obtain ⟨h1, h2⟩ := lazyLoadingCallback_hit st entries r hr hvis
  obtain ⟨k1, k2, k3⟩ := notifyLazyAll_unobserved (lazyLoadingCallback st entries) rounds
    r.target h2
  obtain ⟨j1, _, j3⟩ := lazyLoadingEntry_hit (lazyLoadingCallback st entries) r hvis
  refine ⟨h2, k2, k3, by rw [k1, h1], j3, ?_⟩
  exact j1.trans (lazyLoadingCallback_datasetSrc st entries r.target)

theorem lazyLoading_copy_once_through_observer_witness :
    (1 : Nat) ∉ (lazyLoadingCallback
        ⟨fun _ => ⟨.str "", .str "x.png"⟩, [1], []⟩ [⟨true, 1⟩]).observed ∧
    copyCount (notifyLazyAll (lazyLoadingCallback
        ⟨fun _ => ⟨.str "", .str "x.png"⟩, [1], []⟩ [⟨true, 1⟩]) [[⟨true, 1⟩]]) 1 =
      copyCount (lazyLoadingCallback
        ⟨fun _ => ⟨.str "", .str "x.png"⟩, [1], []⟩ [⟨true, 1⟩]) 1 :=
  ⟨(lazyLoading_copy_once_through_observer ⟨fun _ => ⟨.str "", .str "x.png"⟩, [1], []⟩
      [⟨true, 1⟩] ⟨true, 1⟩ (by simp) rfl [[⟨true, 1⟩]]).1,
   (lazyLoading_copy_once_through_observer ⟨fun _ => ⟨.str "", .str "x.png"⟩, [1], []⟩
      [⟨true, 1⟩] ⟨true, 1⟩ (by simp) rfl [[⟨true, 1⟩]]).2.2.1⟩

/-- C7 fails on the callback: element 1, with deferred source `x.png`, is
processed as visible (`src` copied, element unobserved, one assignment); the
callback run on a second visible record for it assigns `src` a second time.
The same happens inside one batch of the observer holding two visible records
for the element. -/
theorem lazyLoadingCallback_copies_again :
    ((lazyLoadingCallback
        ⟨fun _ => ⟨.str "", .str "x.png"⟩, [1], []⟩ [⟨true, 1⟩]).imgs 1).src = .str "x.png" ∧
    (lazyLoadingCallback
        ⟨fun _ => ⟨.str "", .str "x.png"⟩, [1], []⟩ [⟨true, 1⟩]).observed = [] ∧
    copyCount (lazyLoadingCallback
        ⟨fun _ => ⟨.str "", .str "x.png"⟩, [1], []⟩ [⟨true, 1⟩]) 1 = 1 ∧
    copyCount (lazyLoadingCallback (lazyLoadingCallback
        ⟨fun _ => ⟨.str "", .str "x.png"⟩, [1], []⟩ [⟨true, 1⟩]) [⟨true, 1⟩]) 1 = 2 ∧
    copyCount (notifyLazy
        ⟨fun _ => ⟨.str "", .str "x.png"⟩, [1], []⟩ [⟨true, 1⟩, ⟨true, 1⟩]) 1 = 2 := by
  refine ⟨rfl, rfl, rfl, rfl, rfl⟩

/-! ## `setupResponsiveComponents` -/

theorem mem_classListAdd (c t : String) (classes : List String) :
    t ∈ classListAdd c classes ↔ t = c ∨ t ∈ classes := by
  unfold classListAdd
  split
  · rename_i h
    constructor
    · exact fun ht => Or.inr ht
    · rintro (rfl | ht)
      · exact h
      · exact ht
  · simp [or_comm]

theorem mem_classListRemove (c t : String) (classes : List String) :
    t ∈ classListRemove c classes ↔ t ∈ classes ∧ t ≠ c := by
  simp [classListRemove]

theorem classListAdd_add (c : String) (classes : List String) :
    classListAdd c (classListAdd c classes) = classListAdd c classes := by
  have h : c ∈ classListAdd c classes := (mem_classListAdd c c classes).mpr (Or.inl rfl)
  generalize classListAdd c classes = l at h
  simp [classListAdd, h]

theorem classListRemove_add (c : String) (classes : List String) :
    classListRemove c (classListAdd c classes) = classListRemove c classes := by
  unfold classListAdd
  split
  · rfl
  · simp [classListRemove, List.filter_append]

theorem classListRemove_remove (c : String) (classes : List String) :
    classListRemove c (classListRemove c classes) = classListRemove c classes := by
  simp [classListRemove, List.filter_filter]

theorem resizeEntry_apply (classes : Nat → List String) (entry : ResizeEntry) (el : Nat) :
    resizeEntry classes entry el = resizeEntryAt el (classes el) entry := by
  unfold resizeEntry resizeEntryAt
  by_cases ht : entry.target = el
  · subst ht
    by_cases hw : entry.width < 300 <;> simp [hw]
  · have hne : el ≠ entry.target := fun h => ht h.symm
    by_cases hw : entry.width < 300 <;> simp [hw, ht, Function.update, hne]

theorem resizeCallback_cons (classes : Nat → List String) (x : ResizeEntry)
    (xs : List ResizeEntry) :
    resizeCallback classes (x :: xs) = resizeCallback (resizeEntry classes x) xs := rfl

theorem resizeCallback_append (classes : Nat → List String) (xs ys : List ResizeEntry) :
    resizeCallback classes (xs ++ ys) = resizeCallback (resizeCallback classes xs) ys := by
  simp [resizeCallback, List.foldl_append]

/-- The callback acts on each element by itself. -/
theorem resizeCallback_apply (classes : Nat → List String) (entries : List ResizeEntry)
    (el : Nat) :
    resizeCallback classes entries el = entries.foldl (resizeEntryAt el) (classes el) := by
  induction entries generalizing classes with
  | nil => rfl
  | cons x xs ih => rw [resizeCallback_cons, ih, resizeEntry_apply]; rfl

theorem foldl_resizeEntryAt_untouched (el : Nat) (entries : List ResizeEntry)
    (classes : List String) (h : ∀ q ∈ entries, q.target ≠ el) :
    entries.foldl (resizeEntryAt el) classes = classes := by
  induction entries generalizing classes with
  | nil => rfl
  | cons x xs ih =>
    have hx : resizeEntryAt el classes x = classes := by
      simp [resizeEntryAt, h x (List.mem_cons_self _ _)]
    rw [List.foldl_cons, hx]
    exact ih classes (fun q hq => h q (List.mem_cons_of_mem _ hq))

theorem mem_resizeEntryAt_other (el : Nat) (classes : List String) (entry : ResizeEntry)
    (t : String) (ht : t ≠ "compact") :
    t ∈ resizeEntryAt el classes entry ↔ t ∈ classes := by
  unfold resizeEntryAt
  split
  · split
    · simp [mem_classListAdd, ht]
    · simp [mem_classListRemove, ht]
  · exact Iff.rfl

theorem mem_foldl_resizeEntryAt_other (el : Nat) (entries : List ResizeEntry)
    (classes : List String) (t : String) (ht : t ≠ "compact") :
    t ∈ entries.foldl (resizeEntryAt el) classes ↔ t ∈ classes := by
  induction entries generalizing classes with
  | nil => exact Iff.rfl
  | cons x xs ih =>
    rw [List.foldl_cons]
    exact (ih _).trans (mem_resizeEntryAt_other el classes x t ht)

/-- On one element a batch acts as one of: nothing, `add`, `remove`, `remove`
then `add`. -/
theorem foldl_resizeEntryAt_shape (el : Nat) (entries : List ResizeEntry) :
    (∀ l, entries.foldl (resizeEntryAt el) l = l) ∨
    (∀ l, entries.foldl (resizeEntryAt el) l = classListAdd "compact" l) ∨
    (∀ l, entries.foldl (resizeEntryAt el) l = classListRemove "compact" l) ∨
    (∀ l, entries.foldl (resizeEntryAt el) l =
      classListAdd "compact" (classListRemove "compact" l)) := by
  induction entries with
  | nil => exact Or.inl (fun _ => rfl)
  | cons x xs ih =>
    by_cases ht : x.target = el
    · by_cases hw : x.width < 300
      · have hx : ∀ l, resizeEntryAt el l x = classListAdd "compact" l := by
          intro l; simp [resizeEntryAt, ht, hw]
        rcases ih with h | h | h | h
        · exact Or.inr (Or.inl (fun l => by rw [List.foldl_cons, h, hx]))
        · exact Or.inr (Or.inl (fun l => by rw [List.foldl_cons, h, hx, classListAdd_add]))
        · exact Or.inr (Or.inr (Or.inl (fun l => by
            rw [List.foldl_cons, h, hx, classListRemove_add])))
        · exact Or.inr (Or.inr (Or.inr (fun l => by
            rw [List.foldl_cons, h, hx, classListRemove_add])))
      · have hx : ∀ l, resizeEntryAt el l x = classListRemove "compact" l := by
          intro l; simp [resizeEntryAt, ht, hw]
        rcases ih with h | h | h | h
        · exact Or.inr (Or.inr (Or.inl (fun l => by rw [List.foldl_cons, h, hx])))
        · exact Or.inr (Or.inr (Or.inr (fun l => by rw [List.foldl_cons, h, hx])))
        · exact Or.inr (Or.inr (Or.inl (fun l => by
            rw [List.foldl_cons, h, hx, classListRemove_remove])))
        · exact Or.inr (Or.inr (Or.inr (fun l => by
            rw [List.foldl_cons, h, hx, classListRemove_remove])))
    · have hx : ∀ l, resizeEntryAt el l x = l := by
        intro l; simp [resizeEntryAt, ht]
      rcases ih with h | h | h | h
      · exact Or.inl (fun l => by rw [List.foldl_cons, h, hx])
      · exact Or.inr (Or.inl (fun l => by rw [List.foldl_cons, h, hx]))
      · exact Or.inr (Or.inr (Or.inl (fun l => by rw [List.foldl_cons, h, hx])))
      · exact Or.inr (Or.inr (Or.inr (fun l => by rw [List.foldl_cons, h, hx])))

/-- Running the same batch again changes nothing. -/
theorem resizeCallback_idem (classes : Nat → List String) (entries : List ResizeEntry) :
    resizeCallback (resizeCallback classes entries) entries = resizeCallback classes entries := by
  funext el
  rw [resizeCallback_apply (resizeCallback classes entries), resizeCallback_apply classes]
  rcases foldl_resizeEntryAt_shape el entries with h | h | h | h
  · rw [h, h]
  · rw [h, h, classListAdd_add]
  · rw [h, h, classListRemove_remove]
  · rw [h, h, classListRemove_add, classListRemove_remove]

/-- C8: after the resize callback has run on a batch, the target of a record
(the last one for that element, a batch holding one record for each element)
carries `'compact'` exactly when the record's content width is below 300,
whatever its class list was before; every other class of every element is as
before, an element without a record keeps its class list, and running the
callback again on the same batch leaves the state as after the first run.
Width 299 gives `'compact'` present, width 300 gives it absent. -/
theorem resizeCallback_compact (classes : Nat → List String) (pre post : List ResizeEntry)
    (r : ResizeEntry) (hlast : ∀ q ∈ post, q.target ≠ r.target) :
    ("compact" ∈ resizeCallback classes (pre ++ r :: post) r.target ↔ r.width < 300) ∧
    (∀ el t, t ≠ "compact" →
      (t ∈ resizeCallback classes (pre ++ r :: post) el ↔ t ∈ classes el)) ∧
    (∀ el, (∀ q ∈ pre ++ r :: post, q.target ≠ el) →
      resizeCallback classes (pre ++ r :: post) el = classes el) ∧
    resizeCallback (resizeCallback classes (pre ++ r :: post)) (pre ++ r :: post) =
      resizeCallback classes (pre ++ r :: post) ∧
    (∀ el, "compact" ∈ resizeCallback classes [⟨299, el⟩] el) ∧
    (∀ el, "compact" ∉ resizeCallback classes [⟨300, el⟩] el) := by
  refine ⟨?_, ?_, ?_, resizeCallback_idem classes _, ?_, ?_⟩
  · rw [resizeCallback_apply, List.foldl_append, List.foldl_cons,
      foldl_resizeEntryAt_untouched r.target post _ hlast]
    unfold resizeEntryAt
    by_cases hw : r.width < 300
    · simp [hw, mem_classListAdd]
    · simp [hw, mem_classListRemove]
  · intro el t ht
    rw [resizeCallback_apply]
    exact mem_foldl_resizeEntryAt_other el _ _ t ht
  · intro el hel
    rw [resizeCallback_apply]
    exact foldl_resizeEntryAt_untouched el _ _ hel
  · intro el
    rw [resizeCallback_apply]
    have hw : ((299 : ℚ) < 300) := by norm_num
    simp [resizeEntryAt, hw, mem_classListAdd]
  · intro el
    rw [resizeCallback_apply]
    have hw : ¬ ((300 : ℚ) < 300) := by norm_num
    simp [resizeEntryAt, hw, mem_classListRemove]

theorem resizeCallback_compact_witness :
    (∀ q ∈ ([] : List ResizeEntry), q.target ≠ 1) ∧
    ("compact" ∈ resizeCallback (fun _ => ["card", "compact"])
        ([⟨250, 2⟩] ++ (⟨300, 1⟩ : ResizeEntry) :: []) 1 ↔ (300 : ℚ) < 300) :=
  ⟨by simp, (resizeCallback_compact (fun _ => ["card", "compact"]) [⟨250, 2⟩] [] ⟨300, 1⟩
    (by simp)).1⟩

end App
